import Mathlib

/-!
Verification of the GNUnet IPC substrate (framing codec, dispatch loop,
correlation registry, bootstrap/streaming pattern) as implemented in the
gnunet-rs library.  Bytes are modelled as natural numbers, byte streams as
lists with an explicit end-of-stream behaviour, and machine integers as
naturals with explicit bounds where overflow matters.
-/

namespace Gnunet

/-- Big-endian bytes of a machine integer: k bytes, most significant first. -/
def beBytes : Nat → Nat → List Nat
  | 0, _ => []
  | k + 1, n => beBytes k (n / 256) ++ [n % 256]

/-- Value of a big-endian byte list, as computed by reading the bytes in order. -/
def beVal (bs : List Nat) : Nat := bs.foldl (fun a b => a * 256 + b) 0

/-- Two-byte big-endian encoding, as produced by write_u16. -/
def u16be (n : Nat) : List Nat := beBytes 2 n

theorem beBytes_two (n : Nat) : beBytes 2 n = [n / 256 % 256, n % 256] := by
  simp [beBytes]

theorem beVal_u16be (n : Nat) (h : n < 65536) : beVal (u16be n) = n := by
  have h1 : n / 256 < 256 := by omega
  simp [u16be, beBytes, beVal, Nat.mod_eq_of_lt h1]
  omega

/-- What the transport yields once the buffered bytes of a stream are exhausted:
either a clean end-of-stream (read returns 0 bytes) or an I/O error with the
given code. -/
inductive StreamTail : Type
  | eof : StreamTail
  | ioErr (code : Nat) : StreamTail
deriving DecidableEq, Repr

/-- A byte stream as seen by the read side of a connection: the bytes still
buffered, followed by the tail behaviour. -/
structure ByteStream : Type where
  bytes : List Nat
  tail : StreamTail
deriving DecidableEq, Repr

/-- Low-level read failure, mirroring the two arms of the read loop in
util::io::ReadUtil::read_exact: a read that returns 0 bytes yields
UnexpectedEOF, an underlying transport error is passed through. -/
inductive LowErr : Type
  | unexpectedEof : LowErr
  | ioError (code : Nat) : LowErr
deriving DecidableEq, Repr

/-- Reading exactly n bytes from a stream, as done by
util::io::ReadUtil::read_exact / read_exact_alloc: the loop consumes whatever
is available, fails with UnexpectedEOF when the stream ends first and with the
transport error when a read call fails.  Returns the remaining stream in every
case (on failure all buffered bytes have been consumed by the loop). -/
def readExactly (n : Nat) (s : ByteStream) : Except LowErr (List Nat) × ByteStream :=
  if n ≤ s.bytes.length then
    (Except.ok (s.bytes.take n), ⟨s.bytes.drop n, s.tail⟩)
  else
    match s.tail with
    | StreamTail.eof => (Except.error LowErr.unexpectedEof, ⟨[], s.tail⟩)
    | StreamTail.ioErr c => (Except.error (LowErr.ioError c), ⟨[], s.tail⟩)

/-- An owned in-memory buffer with a read position, mirroring
std::io::Cursor over Vec of bytes. -/
structure Cursor : Type where
  data : List Nat
  pos : Nat
deriving DecidableEq, Repr

/-- The bytes of a cursor that have not been read yet. -/
def Cursor.remaining (c : Cursor) : List Nat := c.data.drop c.pos

/-- Reading exactly n bytes from a cursor.  A cursor never produces transport
errors; running off the end of the buffer is an unexpected end-of-file. -/
def cursorReadBytes (n : Nat) (c : Cursor) : Except LowErr (List Nat × Cursor) :=
  if c.pos + n ≤ c.data.length then
    Except.ok ((c.data.drop c.pos).take n, ⟨c.data, c.pos + n⟩)
  else
    Except.error LowErr.unexpectedEof

/-- Reading a big-endian u16 from a cursor (byteorder's read_u16). -/
def cursorReadU16 (c : Cursor) : Except LowErr (Nat × Cursor) :=
  match cursorReadBytes 2 c with
  | Except.ok (bs, c') => Except.ok (beVal bs, c')
  | Except.error e => Except.error e

/-- Reading a big-endian u32 from a cursor (byteorder's read_u32). -/
def cursorReadU32 (c : Cursor) : Except LowErr (Nat × Cursor) :=
  match cursorReadBytes 4 c with
  | Except.ok (bs, c') => Except.ok (beVal bs, c')
  | Except.error e => Except.error e

/-- Reading a big-endian u64 from a cursor (byteorder's read_u64). -/
def cursorReadU64 (c : Cursor) : Except LowErr (Nat × Cursor) :=
  match cursorReadBytes 8 c with
  | Except.ok (bs, c') => Except.ok (beVal bs, c')
  | Except.error e => Except.error e

/-- Errors produced by ServiceReader::read_message, mirroring
service::ReadMessageError (constructors Io, ShortMessage, Disconnected). -/
inductive ReadMessageError : Type
  | ioError (code : Nat) : ReadMessageError
  | ShortMessage (len : Nat) : ReadMessageError
  | Disconnected : ReadMessageError
deriving DecidableEq, Repr

/-- The byteorder_error_chain mapping: an end-of-file error becomes
Disconnected, any other I/O error becomes the Io variant. -/
def ReadMessageError.fromLow : LowErr → ReadMessageError
  | LowErr.unexpectedEof => ReadMessageError.Disconnected
  | LowErr.ioError c => ReadMessageError.ioError c

/-- ServiceReader::read_message: read a big-endian u16 total length, reject
lengths below 4, read the remaining length - 2 bytes into an owned buffer,
read the big-endian u16 message type off the front of that buffer and return
the type together with a cursor over the rest.  The remaining stream is
returned in every case. -/
def read_message (s : ByteStream) : Except ReadMessageError (Nat × Cursor) × ByteStream :=
  match readExactly 2 s with
  | (Except.error e, s') => (Except.error (ReadMessageError.fromLow e), s')
  | (Except.ok lb, s') =>
    let len := beVal lb
    if len < 4 then
      (Except.error (ReadMessageError.ShortMessage len), s')
    else
      match readExactly (len - 2) s' with
      | (Except.error e, s'') => (Except.error (ReadMessageError.fromLow e), s'')
      | (Except.ok v, s'') =>
        match cursorReadU16 ⟨v, 0⟩ with
        | Except.error e => (Except.error (ReadMessageError.fromLow e), s'')
        | Except.ok (tpe, mr) => (Except.ok (tpe, mr), s'')

/-- The message buffer built by ServiceWriter::write_message: the bytes written
so far together with the capacity of the underlying vector.  The vector is
created with with_capacity(len), which allocates exactly the requested
capacity. -/
structure MsgBuf : Type where
  data : List Nat
  cap : Nat
deriving DecidableEq, Repr

/-- One write call on the message buffer (Cursor write at the end of the
vector, i.e. extend_from_slice).  When the new length exceeds the capacity the
vector grows with the amortized policy of the standard library:
new capacity = max (2 * old capacity) (required length). -/
def bufWrite (b : MsgBuf) (bs : List Nat) : MsgBuf :=
  let n := b.data.length + bs.length
  { data := b.data ++ bs
    cap := if n ≤ b.cap then b.cap else max (2 * b.cap) n }

/-- A sequence of write calls on a message buffer. -/
def bufWrites (b : MsgBuf) (ws : List (List Nat)) : MsgBuf := ws.foldl bufWrite b

/-- ServiceWriter::write_message(len, tpe): allocate a vector of capacity len
and write the big-endian length and type fields.  The source also asserts
4 ≤ len; theorems about messages that were actually built carry that bound as
a hypothesis. -/
def write_message (len tpe : Nat) : MsgBuf :=
  bufWrite (bufWrite { data := [], cap := len } (u16be len)) (u16be tpe)

/-- The assertion executed by MessageWriter::send: the vector's length equals
its capacity. -/
def sendAssert (b : MsgBuf) : Bool := b.data.length == b.cap

/-- MessageWriter::send: if the assertion holds, the whole buffer is written to
the transport in one call and returned here as the wire bytes; otherwise the
process panics (modelled as none). -/
def send (b : MsgBuf) : Option (List Nat) :=
  if b.data.length = b.cap then some b.data else none

theorem bufWrite_data (b : MsgBuf) (bs : List Nat) :
    (bufWrite b bs).data = b.data ++ bs := rfl

theorem bufWrites_data (ws : List (List Nat)) (b : MsgBuf) :
    (bufWrites b ws).data = b.data ++ ws.flatten := by
  induction ws generalizing b with
  | nil => simp [bufWrites]
  | cons w ws ih =>
    simp [bufWrites] at ih ⊢
    rw [ih, bufWrite_data, List.append_assoc]

theorem bufWrite_cap_ge (b : MsgBuf) (bs : List Nat) : b.cap ≤ (bufWrite b bs).cap := by
  simp only [bufWrite]
  split
  · exact Nat.le_refl _
  · exact Nat.le_trans (Nat.le_mul_of_pos_left _ (by omega)) (Nat.le_max_left _ _)

theorem bufWrites_cap_ge (ws : List (List Nat)) (b : MsgBuf) :
    b.cap ≤ (bufWrites b ws).cap := by
  induction ws generalizing b with
  | nil => exact Nat.le_refl _
  | cons w ws ih =>
    exact Nat.le_trans (bufWrite_cap_ge b w) (ih (bufWrite b w))

theorem bufWrites_cons (b : MsgBuf) (w : List Nat) (ws : List (List Nat)) :
    bufWrites b (w :: ws) = bufWrites (bufWrite b w) ws := rfl

/-- If every intermediate length stays within the initial capacity — which
holds as soon as the final length does, since lengths only grow — the vector
never reallocates and the capacity is unchanged. -/
theorem bufWrites_cap_of_le (ws : List (List Nat)) (b : MsgBuf)
    (h : (bufWrites b ws).data.length ≤ b.cap) :
    (bufWrites b ws).cap = b.cap := by
  induction ws generalizing b with
  | nil => rfl
  | cons w ws ih =>
    rw [bufWrites_cons] at h ⊢
    have hlen : (bufWrite b w).data.length ≤ (bufWrites (bufWrite b w) ws).data.length := by
      rw [bufWrites_data]
      simp
    have hw : (bufWrite b w).data.length ≤ b.cap := Nat.le_trans hlen h
    have hcap : (bufWrite b w).cap = b.cap := by
      rw [bufWrite_data] at hw
      simp only [bufWrite, List.length_append] at hw ⊢
      simp [hw]
    rw [ih (bufWrite b w) (by rw [hcap]; exact h), hcap]

/-- Under the length assertion of write_message, the header writes do not grow
the buffer: the result is the four header bytes at capacity len. -/
theorem write_message_eq (len tpe : Nat) (h : 4 ≤ len) :
    write_message len tpe = { data := u16be len ++ u16be tpe, cap := len } := by
  have h2 : (u16be len).length = 2 := by simp [u16be, beBytes]
  have h2' : (u16be tpe).length = 2 := by simp [u16be, beBytes]
  simp only [write_message, bufWrite, List.nil_append, List.length_nil, Nat.zero_add, h2,
    List.length_append, h2']
  rw [if_pos (by omega : (2:Nat) ≤ len)]
  rw [if_pos (by omega : (2:Nat) + 2 ≤ len)]

/-- Decoding a single well-formed frame laid out at the front of a stream:
read_message returns its type and a cursor whose remaining bytes are the
payload, consuming exactly the frame. -/
theorem read_message_frame (tpe : Nat) (body rest : List Nat) (t : StreamTail)
    (hlen : body.length + 4 ≤ 65535) (htpe : tpe < 65536) :
    read_message ⟨u16be (body.length + 4) ++ u16be tpe ++ body ++ rest, t⟩ =
      (Except.ok (tpe, ⟨u16be tpe ++ body, 2⟩), ⟨rest, t⟩) := by
  set L := body.length + 4 with hL
  have h2 : (u16be L).length = 2 := by simp [u16be, beBytes]
  have h2' : (u16be tpe).length = 2 := by simp [u16be, beBytes]
  have hbv : beVal (u16be L) = L := beVal_u16be L (by omega)
  have hbv' : beVal (u16be tpe) = tpe := beVal_u16be tpe htpe
  have hsplit : u16be L ++ u16be tpe ++ body ++ rest =
      u16be L ++ (u16be tpe ++ body ++ rest) := by simp
  simp only [read_message, readExactly, hsplit]
  have hlen1 : (2:Nat) ≤ (u16be L ++ (u16be tpe ++ body ++ rest)).length := by
    simp [h2]
  rw [if_pos hlen1]
  have htake : (u16be L ++ (u16be tpe ++ body ++ rest)).take 2 = u16be L := by
    rw [List.take_append_of_le_length (by omega), List.take_of_length_le (by omega)]
  have hdrop : (u16be L ++ (u16be tpe ++ body ++ rest)).drop 2 = u16be tpe ++ body ++ rest := by
    rw [List.drop_append_of_le_length (by omega)]
    simp [h2]
  simp only [htake, hdrop, hbv]
  rw [if_neg (by omega)]
  have hlen2 : L - 2 ≤ (u16be tpe ++ body ++ rest).length := by
    simp [h2']
    omega
  rw [if_pos hlen2]
  have hpre : u16be tpe ++ body ++ rest = (u16be tpe ++ body) ++ rest := by simp
  have hlenpre : (u16be tpe ++ body).length = L - 2 := by
    simp [h2']
    omega
  have htake2 : (u16be tpe ++ body ++ rest).take (L - 2) = u16be tpe ++ body := by
    rw [hpre, List.take_append_of_le_length (by omega), List.take_of_length_le (by omega)]
  have hdrop2 : (u16be tpe ++ body ++ rest).drop (L - 2) = rest := by
    rw [hpre, List.drop_append_of_le_length (by omega)]
    simp [hlenpre]
  simp only [htake2, hdrop2]
  have hc : cursorReadU16 ⟨u16be tpe ++ body, 0⟩ = Except.ok (tpe, ⟨u16be tpe ++ body, 2⟩) := by
    simp only [cursorReadU16, cursorReadBytes]
    rw [if_pos (by simp [h2'])]
    simp only [List.drop_zero, Nat.zero_add]
    rw [List.take_append_of_le_length (by omega), List.take_of_length_le (by omega), hbv']
  rw [hc]

/-- C1: for every message type and payload with payload.len() + 4 ≤ 65535,
encoding with ServiceWriter::write_message(payload.len() + 4, tpe), writing the
payload and calling send, then decoding the produced bytes with
ServiceReader::read_message yields the same pair: the returned type equals tpe
and the remaining bytes of the returned cursor equal the payload. -/
theorem c1_framing_round_trip (tpe : Nat) (payload : List Nat)
    (hp : payload.length + 4 ≤ 65535) (ht : tpe < 65536) :
    ∃ wire cur,
      send (bufWrite (write_message (payload.length + 4) tpe) payload) = some wire ∧
      read_message ⟨wire, StreamTail.eof⟩ = (Except.ok (tpe, cur), ⟨[], StreamTail.eof⟩) ∧
      cur.remaining = payload := by
  set L := payload.length + 4 with hL
  have h4 : 4 ≤ L := by omega
  have h2 : (u16be L).length = 2 := by simp [u16be, beBytes]
  have h2' : (u16be tpe).length = 2 := by simp [u16be, beBytes]
  have hwm := write_message_eq L tpe h4
  refine ⟨u16be L ++ u16be tpe ++ payload, ⟨u16be tpe ++ payload, 2⟩, ?_, ?_, ?_⟩
  · rw [hwm]
    have hc : bufWrite { data := u16be L ++ u16be tpe, cap := L } payload =
        { data := (u16be L ++ u16be tpe) ++ payload, cap := L } := by
      simp only [bufWrite, List.length_append, h2, h2']
      rw [if_pos (by omega)]
    rw [hc]
    simp only [send, List.length_append, h2, h2']
    rw [if_pos (by omega)]
  · have := read_message_frame tpe payload [] StreamTail.eof (by omega) ht
    simpa using this
  · simp [Cursor.remaining, h2']

/-- Evaluation of the framing round trip at type 7 and payload [1, 2, 3]. -/
theorem c1_framing_round_trip_witness :
    ∃ wire cur,
      send (bufWrite (write_message (([1, 2, 3] : List Nat).length + 4) 7) [1, 2, 3]) =
        some wire ∧
      read_message ⟨wire, StreamTail.eof⟩ = (Except.ok (7, cur), ⟨[], StreamTail.eof⟩) ∧
      cur.remaining = [1, 2, 3] :=
  c1_framing_round_trip 7 [1, 2, 3] (by decide) (by decide)

/-- C3: on a stream whose first two bytes declare a total length of at least 4
but which reaches end-of-input before that many bytes are available,
ServiceReader::read_message fails with Disconnected, not with the generic Io
variant. -/
theorem c3_truncated_stream_disconnected (bs : List Nat)
    (h2 : 2 ≤ bs.length)
    (hlen : 4 ≤ beVal (bs.take 2))
    (hshort : bs.length < beVal (bs.take 2)) :
    (read_message ⟨bs, StreamTail.eof⟩).1 = Except.error ReadMessageError.Disconnected := by
  simp only [read_message, readExactly]
  rw [if_pos h2]
  simp only
  rw [if_neg (by omega)]
  have hdl : (bs.drop 2).length = bs.length - 2 := by simp
  rw [if_neg (by omega)]
  rfl

/-- Evaluation of truncated-stream detection on the stream [0, 10] (declared
length 10, only 2 bytes present). -/
theorem c3_truncated_stream_disconnected_witness :
    (read_message ⟨[0, 10], StreamTail.eof⟩).1 = Except.error ReadMessageError.Disconnected :=
  c3_truncated_stream_disconnected [0, 10] (by decide) (by decide) (by decide)

/-- C4: on a stream whose first two bytes declare a total length below 4,
ServiceReader::read_message fails with ShortMessage carrying that declared
length and consumes exactly the two length bytes, no more. -/
theorem c4_short_message_rejected (b0 b1 : Nat) (rest : List Nat) (t : StreamTail)
    (hshort : beVal [b0, b1] < 4) :
    read_message ⟨b0 :: b1 :: rest, t⟩ =
      (Except.error (ReadMessageError.ShortMessage (beVal [b0, b1])), ⟨rest, t⟩) := by
  simp only [read_message, readExactly]
  rw [if_pos (by simp)]
  simp only [List.take_cons, List.drop_succ_cons, List.take_zero, List.drop_zero]
  rw [if_pos (by simpa using hshort)]
  simp

/-- Evaluation of minimum-length rejection on the stream [0, 3, 9] (declared
length 3): the error carries length 3 and the byte 9 is not consumed. -/
theorem c4_short_message_rejected_witness :
    read_message ⟨[0, 3, 9], StreamTail.eof⟩ =
      (Except.error (ReadMessageError.ShortMessage (beVal [0, 3])), ⟨[9], StreamTail.eof⟩) :=
  c4_short_message_rejected 0 3 [9] StreamTail.eof (by decide)

/-- C7 counterexample: the claim states that MessageWriter::send fails its
assertion whenever the buffered total differs from the declared length.  The
assertion in the source compares the vector's length with its capacity, not
with the declared length.  With len = 4 a single extra 4-byte payload write
doubles the capacity to exactly 8, so the assertion passes although 8 bytes
were buffered against a declared length of 4. -/
theorem c7_assert_counterexample :
    sendAssert (bufWrites (write_message 4 0) [[0, 0, 0, 0]]) = true ∧
    (bufWrites (write_message 4 0) [[0, 0, 0, 0]]).data.length ≠ 4 := by
  constructor
  · rfl
  · decide

/-- C7 as amended: for messages built with write_message(len, tpe) (whose
assertion gives 4 ≤ len), send's assertion passes whenever the buffered total
(4-byte header plus the caller's payload writes) equals len, and fails whenever
the buffered total is less than len; when the buffered total exceeds len the
assertion compares against the grown capacity and may pass. -/
theorem c7_assert_amended (len tpe : Nat) (ws : List (List Nat)) (h4 : 4 ≤ len) :
    ((bufWrites (write_message len tpe) ws).data.length = len →
      sendAssert (bufWrites (write_message len tpe) ws) = true) ∧
    ((bufWrites (write_message len tpe) ws).data.length < len →
      sendAssert (bufWrites (write_message len tpe) ws) = false) := by
  have hwm := write_message_eq len tpe h4
  have hcap0 : (write_message len tpe).cap = len := by rw [hwm]
  constructor
  · intro hlen
    have hc := bufWrites_cap_of_le ws (write_message len tpe) (by rw [hcap0, hlen])
    rw [hcap0] at hc
    simp [sendAssert, hlen, hc]
  · intro hlt
    have hc := bufWrites_cap_ge ws (write_message len tpe)
    rw [hcap0] at hc
    have hne : (bufWrites (write_message len tpe) ws).data.length ≠
        (bufWrites (write_message len tpe) ws).cap := by omega
    simp [sendAssert, hne]

/-- Evaluation of the amended assertion property at len = 6 with a single
1-byte payload write: 5 bytes buffered against a declared length of 6, so the
assertion fails. -/
theorem c7_assert_amended_witness :
    sendAssert (bufWrites (write_message 6 0) [[9]]) = false :=
  (c7_assert_amended 6 0 [[9]] (by decide)).2 (by decide)

/-- Modelled from the spec: the message-type table of the low-level bindings
module (declared in lib.rs but not present in the sources) — message types are
opaque numeric tags owned by each service; only their distinctness matters
here.  Values follow the GNUnet protocol registry. -/
def GNUNET_MESSAGE_TYPE_GNS_LOOKUP : Nat := 500

/-- Modelled from the spec: reply tag of a name-resolution lookup. -/
def GNUNET_MESSAGE_TYPE_GNS_LOOKUP_RESULT : Nat := 501

/-- Modelled from the spec: identity-service session start tag. -/
def GNUNET_MESSAGE_TYPE_IDENTITY_START : Nat := 624

/-- Modelled from the spec: identity-service error/result-code reply tag. -/
def GNUNET_MESSAGE_TYPE_IDENTITY_RESULT_CODE : Nat := 625

/-- Modelled from the spec: identity-update record tag of the
sentinel-terminated bootstrap stream. -/
def GNUNET_MESSAGE_TYPE_IDENTITY_UPDATE : Nat := 626

/-- Modelled from the spec: identity-service get-default request tag. -/
def GNUNET_MESSAGE_TYPE_IDENTITY_GET_DEFAULT : Nat := 627

/-- Modelled from the spec: identity-service set-default reply tag. -/
def GNUNET_MESSAGE_TYPE_IDENTITY_SET_DEFAULT : Nat := 628

/-- Modelled from the spec: peerinfo list-all-peers request tag. -/
def GNUNET_MESSAGE_TYPE_PEERINFO_GET_ALL : Nat := 331

/-- Modelled from the spec: peerinfo per-peer record tag. -/
def GNUNET_MESSAGE_TYPE_PEERINFO_INFO : Nat := 332

/-- Modelled from the spec: peerinfo end-of-list sentinel tag. -/
def GNUNET_MESSAGE_TYPE_PEERINFO_INFO_END : Nat := 333

/-- Modelled from the spec: maximum length of a name accepted by a lookup
(constant of the low-level bindings module, absent from the sources). -/
def GNUNET_DNSPARSER_MAX_NAME_LENGTH : Nat := 253

/-- HashMap lookup on an association-list model: the value of the most recent
insertion for the key, if any. -/
def alistGet (m : List (Nat × α)) (k : Nat) : Option α :=
  (m.find? (fun p => p.1 == k)).map Prod.snd

/-- HashMap insert on an association-list model: the new binding shadows and
replaces any previous binding of the key. -/
def alistInsert (m : List (Nat × α)) (k : Nat) (v : α) : List (Nat × α) :=
  (k, v) :: m.filter (fun p => p.1 != k)

/-- A GNS record as deserialized by gns::Record::deserialize: fixed header
fields followed by data_size bytes of record data. -/
structure Record : Type where
  expiration_time : Nat
  data_size : Nat
  record_type : Nat
  flags : Nat
  buff : List Nat
deriving DecidableEq, Repr

/-- gns::Record::deserialize: read the u64 expiration time, u32 data size,
u32 record type and u32 flags, then exactly data_size bytes of record data. -/
def Record.deserialize (c : Cursor) : Except LowErr (Record × Cursor) := do
  let (expiration_time, c) ← cursorReadU64 c
  let (data_size, c) ← cursorReadU32 c
  let (record_type, c) ← cursorReadU32 c
  let (flags, c) ← cursorReadU32 c
  let (buff, c) ← cursorReadBytes data_size c
  pure ({ expiration_time, data_size, record_type, flags, buff }, c)

/-- The return value a dispatch callback hands back to the loop
(service::ProcessMessageResult). -/
inductive ProcessMessageResult : Type
  | Continue : ProcessMessageResult
  | Reconnect : ProcessMessageResult
  | Shutdown : ProcessMessageResult
deriving DecidableEq, Repr

/-- The drain step at the top of the GNS dispatch callback: every pending
(request id, sender) registration received on the channel is inserted into the
handles map, in arrival order. -/
def gnsDrain (handles : List (Nat × Nat)) (regs : List (Nat × Nat)) : List (Nat × Nat) :=
  regs.foldl (fun h p => alistInsert h p.1 p.2) handles

/-- The record-reception loop of the GNS callback: deserialize rd_count
records, sending each to the matched sender as soon as it is decoded; a
deserialization failure aborts the loop (the callback then returns Reconnect),
keeping the records already delivered. -/
def recvRecords : Nat → Cursor → List Record × Bool
  | 0, _ => ([], false)
  | n + 1, c =>
    match Record.deserialize c with
    | Except.error _ => ([], true)
    | Except.ok (r, c') =>
      let (rs, bad) := recvRecords n c'
      (r :: rs, bad)

/-- The dispatch callback installed by GNS::connect.  Senders are identified by
numeric channel ids.  Inputs: whether the foreground's registration channel is
still alive, the handles map, the registrations pending on the channel, and the
frame's type and payload cursor.  Outputs: the updated handles map, the list of
(channel, record) deliveries performed, and the result returned to the loop. -/
def gnsCallback (txAlive : Bool) (handles regs : List (Nat × Nat)) (tpe : Nat) (mr : Cursor) :
    List (Nat × Nat) × List (Nat × Record) × ProcessMessageResult :=
  let h := gnsDrain handles regs
  if ¬txAlive then
    (h, [], ProcessMessageResult.Shutdown)
  else if tpe = GNUNET_MESSAGE_TYPE_GNS_LOOKUP_RESULT then
    match cursorReadU32 mr with
    | Except.error _ => (h, [], ProcessMessageResult.Reconnect)
    | Except.ok (id, mr1) =>
      match alistGet h id with
      | none => (h, [], ProcessMessageResult.Continue)
      | some sender =>
        match cursorReadU32 mr1 with
        | Except.error _ => (h, [], ProcessMessageResult.Reconnect)
        | Except.ok (rd_count, mr2) =>
          let (rs, bad) := recvRecords rd_count mr2
          (h, rs.map (fun r => (sender, r)),
            if bad then ProcessMessageResult.Reconnect else ProcessMessageResult.Continue)
  else
    (h, [], ProcessMessageResult.Reconnect)

/-- C5: when the GNS dispatch callback receives a frame of the known
lookup-result type whose embedded request id has no entry in the handles map
(after the drain step), nothing is delivered to any channel, the callback does
not panic, and it returns Continue so the loop processes subsequent frames;
when the id is present, every delivered record goes to that entry's channel
and to no other. -/
theorem c5_unknown_id_dropped (handles regs : List (Nat × Nat)) (mr mr1 : Cursor) (id : Nat)
    (hread : cursorReadU32 mr = Except.ok (id, mr1)) :
    (alistGet (gnsDrain handles regs) id = none →
      gnsCallback true handles regs GNUNET_MESSAGE_TYPE_GNS_LOOKUP_RESULT mr =
        (gnsDrain handles regs, [], ProcessMessageResult.Continue)) ∧
    (∀ sender, alistGet (gnsDrain handles regs) id = some sender →
      ∀ d ∈ (gnsCallback true handles regs GNUNET_MESSAGE_TYPE_GNS_LOOKUP_RESULT mr).2.1,
        d.1 = sender) := by
  constructor
  · intro hnone
    simp [gnsCallback, hread, hnone]
  · intro sender hsome d hd
    simp only [gnsCallback, Bool.not_true, if_neg, ite_true, if_true] at hd
    rw [hread] at hd
    simp only [hsome] at hd
    cases hc : cursorReadU32 mr1 with
    | error e =>
      rw [hc] at hd
      simp at hd
    | ok v =>
      rw [hc] at hd
      obtain ⟨cnt, mr2⟩ := v
      simp only at hd
      rcases List.mem_map.mp hd with ⟨r, _, hr⟩
      rw [← hr]

/-- Evaluation of the unknown-id scenario: a lookup-result frame with id 0
arrives while only id 5 is registered; nothing is delivered and the callback
returns Continue. -/
theorem c5_unknown_id_dropped_witness :
    gnsCallback true [] [(5, 1)] GNUNET_MESSAGE_TYPE_GNS_LOOKUP_RESULT ⟨[0, 0, 0, 0], 0⟩ =
      (gnsDrain [] [(5, 1)], [], ProcessMessageResult.Continue) :=
  (c5_unknown_id_dropped [] [(5, 1)] ⟨[0, 0, 0, 0], 0⟩ ⟨[0, 0, 0, 0], 4⟩ 0 rfl).1 rfl

/-- The result of running a fallible operation that may also abort the
process: success, a typed error, or a panic (assertion failure / unwrap on a
missing value). -/
inductive Outcome (ε α : Type) : Type
  | ok (a : α) : Outcome ε α
  | err (e : ε) : Outcome ε α
  | panicked : Outcome ε α
deriving DecidableEq, Repr

/-- MessageWriter::send against a transport whose write result is given by
net (none = success, some code = I/O error): assert that the buffered length
equals the declared capacity, then write the whole buffer in one call. -/
def mwSend (b : MsgBuf) (net : List Nat → Option Nat) : Outcome Nat (List Nat) :=
  if b.data.length = b.cap then
    match net b.data with
    | none => Outcome.ok b.data
    | some c => Outcome.err c
  else
    Outcome.panicked

/-- Errors of the GNS lookup functions (gns::LookupError). -/
inductive LookupError : Type
  | NameTooLong (name : List Nat) : LookupError
  | ioError (code : Nat) : LookupError
deriving DecidableEq, Repr

/-- Externally visible actions of GNS::lookup, in program order: pushing the
(request id, sender) pair onto the registration channel, and writing the
request frame to the transport. -/
inductive LookupEvent : Type
  | registered (id : Nat) : LookupEvent
  | sent (frame : List Nat) : LookupEvent
deriving DecidableEq, Repr

/-- Arguments of GNS::lookup.  The name is its UTF-8 bytes, the zone the
32 serialized bytes of the requester public key, shorten the optional
32 serialized bytes of the shorten-zone private key. -/
structure LookupArgs : Type where
  name : List Nat
  zone : List Nat
  record_type : Nat
  options : Nat
  shorten : Option (List Nat)
deriving DecidableEq, Repr

/-- The request message of GNS::lookup as built before sending: declared
length 80 + name length + 1, lookup type, then request id, zone key, options,
have-shorten flag, record type, shorten key or zeroes, and the NUL-terminated
name. -/
def lookupMsgBuf (id : Nat) (a : LookupArgs) : MsgBuf :=
  bufWrites (write_message (80 + a.name.length + 1) GNUNET_MESSAGE_TYPE_GNS_LOOKUP)
    [beBytes 4 id, a.zone, beBytes 2 a.options,
     beBytes 2 (if a.shorten.isSome then 1 else 0), beBytes 4 a.record_type,
     (match a.shorten with
      | some z => z
      | none => List.replicate 32 0),
     a.name, [0]]

/-- GNS::lookup: reject over-long names, allocate the next request id, build
the request message, push the registration onto the channel (regOk = false
models a dead callback loop, where the unwrap on the channel send panics), and
only then send the frame.  Returns the result together with the trace of
externally visible actions. -/
def lookup (lookup_id : Nat) (a : LookupArgs) (regOk : Bool) (net : List Nat → Option Nat) :
    Outcome LookupError (Nat × Nat) × List LookupEvent :=
  if a.name.length > GNUNET_DNSPARSER_MAX_NAME_LENGTH then
    (Outcome.err (LookupError.NameTooLong a.name), [])
  else
    let id := lookup_id
    let buf := lookupMsgBuf id a
    if ¬regOk then
      (Outcome.panicked, [])
    else
      match mwSend buf net with
      | Outcome.ok frame => (Outcome.ok (id, lookup_id + 1),
          [LookupEvent.registered id, LookupEvent.sent frame])
      | Outcome.err c => (Outcome.err (LookupError.ioError c),
          [LookupEvent.registered id, LookupEvent.sent buf.data])
      | Outcome.panicked => (Outcome.panicked, [LookupEvent.registered id])

/-- C2: in every successful execution of GNS::lookup the registration push
onto the channel strictly precedes the transport write performed by send: the
trace is exactly the registration (index 0) followed by the frame write
(index 1), so the send is never performed before the registration is
enqueued. -/
theorem c2_registration_precedes_send (lookup_id : Nat) (a : LookupArgs) (regOk : Bool)
    (net : List Nat → Option Nat)
    (hok : ∃ x, (lookup lookup_id a regOk net).1 = Outcome.ok x) :
    (lookup lookup_id a regOk net).2 =
      [LookupEvent.registered lookup_id, LookupEvent.sent (lookupMsgBuf lookup_id a).data] := by
  obtain ⟨x, hx⟩ := hok
  by_cases hlong : a.name.length > GNUNET_DNSPARSER_MAX_NAME_LENGTH
  · simp [lookup, hlong] at hx
  · cases regOk with
    | false => simp [lookup, hlong] at hx
    | true =>
      simp only [lookup, hlong, if_false, Bool.not_true, ite_false, ite_true] at hx ⊢
      cases hs : mwSend (lookupMsgBuf lookup_id a) net with
      | ok frame =>
        simp only [hs]
        have hfd : frame = (lookupMsgBuf lookup_id a).data := by
          simp only [mwSend] at hs
          split at hs
          · split at hs
            · injection hs with h
              exact h.symm
            · exact absurd hs (by simp)
          · exact absurd hs (by simp)
        rw [hfd]
        simp
      | err c =>
        simp only [hs] at hx
        simp at hx
      | panicked =>
        simp only [hs] at hx
        simp at hx

/-- Evaluation of the registration-before-send ordering on a concrete
successful lookup (one-byte name, zero zone key, record type A, default
options, no shorten zone, transport accepting the write). -/
theorem c2_registration_precedes_send_witness :
    (lookup 0 ⟨[119], List.replicate 32 0, 1, 0, none⟩ true (fun _ => none)).2 =
      [LookupEvent.registered 0,
       LookupEvent.sent (lookupMsgBuf 0 ⟨[119], List.replicate 32 0, 1, 0, none⟩).data] :=
  c2_registration_precedes_send 0 ⟨[119], List.replicate 32 0, 1, 0, none⟩ true (fun _ => none)
    ⟨(0, 1), by rfl⟩

/-- Ordered events of one run of the dispatch loop spawned by
ServiceReader::spawn_callback_loop with the GNS callback installed: completion
of the blocking frame read, the registration drain performed at the top of the
callback, and the dispatch of the frame's payload by the rest of the
callback. -/
inductive LoopEvent : Type
  | read (tpe : Nat) : LoopEvent
  | drained : LoopEvent
  | handled (tpe : Nat) : LoopEvent
deriving DecidableEq, Repr

/-- The dispatch loop of ServiceReader::spawn_callback_loop running the GNS
callback: each iteration blocks on read_message (a read error exits the loop),
then invokes the callback, which first drains the registration batch of the
iteration and then dispatches the frame; Continue loops again, Reconnect and
Shutdown exit.  Returns the event trace, the final handles map and all
deliveries, with fuel bounding the number of iterations. -/
def gnsLoop (fuel : Nat) (txAlive : Bool) (handles : List (Nat × Nat))
    (regsSeq : List (List (Nat × Nat))) (s : ByteStream) :
    List LoopEvent × List (Nat × Nat) × List (Nat × Record) :=
  match fuel with
  | 0 => ([], handles, [])
  | fuel + 1 =>
    match read_message s with
    | (Except.error _, _) => ([], handles, [])
    | (Except.ok (tpe, mr), s') =>
      match gnsCallback txAlive handles (regsSeq.headD []) tpe mr with
      | (h', ds, ProcessMessageResult.Continue) =>
        let (tr, hf, df) := gnsLoop fuel txAlive h' regsSeq.tail s'
        (LoopEvent.read tpe :: LoopEvent.drained :: LoopEvent.handled tpe :: tr, hf, ds ++ df)
      | (h', ds, _) =>
        ([LoopEvent.read tpe, LoopEvent.drained, LoopEvent.handled tpe], h', ds)

/-- The per-iteration event pattern actually produced by the loop: the
blocking frame read first, then the registration drain, then the dispatch of
that same frame. -/
def loopTraceShape : List LoopEvent → Bool
  | [] => true
  | LoopEvent.read t :: LoopEvent.drained :: LoopEvent.handled t' :: rest =>
    t == t' && loopTraceShape rest
  | _ => false

/-- C8 counterexample: the claim states that in every iteration the pending
registrations are drained before the loop blocks on reading the frame.  On a
concrete run with one pending registration and one lookup-result frame the
very first event is the completion of the blocking read; no drain precedes it
(the drain is performed by the callback after the frame has been read). -/
theorem c8_drain_order_counterexample :
    (gnsLoop 2 true [] [[(5, 1)]] ⟨[0, 8, 1, 245, 0, 0, 0, 0], StreamTail.eof⟩).1 =
      [LoopEvent.read 501, LoopEvent.drained, LoopEvent.handled 501] ∧
    (gnsLoop 2 true [] [[(5, 1)]] ⟨[0, 8, 1, 245, 0, 0, 0, 0], StreamTail.eof⟩).1.head? =
      some (LoopEvent.read 501) ∧
    LoopEvent.drained ∉
      (gnsLoop 2 true [] [[(5, 1)]] ⟨[0, 8, 1, 245, 0, 0, 0, 0], StreamTail.eof⟩).1.take 1 := by
  refine ⟨?_, ?_, ?_⟩ <;> decide

/-- C8 as amended: in every iteration of the dispatch loop the frame is read
first; the callback then drains the pending registrations and only after the
drain dispatches the frame's type and payload.  Hence registrations are
drained before each frame is dispatched and before the next frame is read —
but after, not before, the blocking read of the frame they accompany. -/
theorem c8_read_then_drain_then_handle (fuel : Nat) (txAlive : Bool)
    (handles : List (Nat × Nat)) (regsSeq : List (List (Nat × Nat))) (s : ByteStream) :
    loopTraceShape (gnsLoop fuel txAlive handles regsSeq s).1 = true := by
  induction fuel generalizing handles regsSeq s with
  | zero => simp [gnsLoop, loopTraceShape]
  | succ n ih =>
    simp only [gnsLoop]
    split
    · simp [loopTraceShape]
    · split
      · simp only [loopTraceShape, beq_self_eq_true, Bool.true_and]
        apply ih
      · simp [loopTraceShape]

/-- Continuation byte of a multi-byte UTF-8 sequence. -/
def utf8Cont (b : Nat) : Bool := 128 ≤ b && b ≤ 191

/-- Validity of a byte list as UTF-8, the check performed by Rust's
String::from_utf8 (surrogates and over-long encodings rejected). -/
def utf8Valid : List Nat → Bool
  | [] => true
  | b :: rest =>
    if b ≤ 127 then utf8Valid rest
    else if 194 ≤ b && b ≤ 223 then
      match rest with
      | c1 :: r => utf8Cont c1 && utf8Valid r
      | [] => false
    else if b = 224 then
      match rest with
      | c1 :: c2 :: r => (160 ≤ c1 && c1 ≤ 191) && utf8Cont c2 && utf8Valid r
      | _ => false
    else if (225 ≤ b && b ≤ 236) || (238 ≤ b && b ≤ 239) then
      match rest with
      | c1 :: c2 :: r => utf8Cont c1 && utf8Cont c2 && utf8Valid r
      | _ => false
    else if b = 237 then
      match rest with
      | c1 :: c2 :: r => (128 ≤ c1 && c1 ≤ 159) && utf8Cont c2 && utf8Valid r
      | _ => false
    else if b = 240 then
      match rest with
      | c1 :: c2 :: c3 :: r =>
        (144 ≤ c1 && c1 ≤ 191) && utf8Cont c2 && utf8Cont c3 && utf8Valid r
      | _ => false
    else if 241 ≤ b && b ≤ 243 then
      match rest with
      | c1 :: c2 :: c3 :: r => utf8Cont c1 && utf8Cont c2 && utf8Cont c3 && utf8Valid r
      | _ => false
    else if b = 244 then
      match rest with
      | c1 :: c2 :: c3 :: r =>
        (128 ≤ c1 && c1 ≤ 143) && utf8Cont c2 && utf8Cont c3 && utf8Valid r
      | _ => false
    else false

/-- An identity ego (identity::Ego): 32 bytes of private-key material, the
optional UTF-8 name bytes, and the hash-code id of the public key, modelled as
a natural number since the hash is consumed as an opaque value. -/
structure Ego : Type where
  pk : List Nat
  name : Option (List Nat)
  id : Nat
deriving DecidableEq, Repr

/-- Errors of the identity-service bootstrap (identity::ConnectError); the
Connect variant of the source wraps the connection step, which happens before
the bootstrap loop modelled here. -/
inductive IdentityConnectError : Type
  | ioError (code : Nat) : IdentityConnectError
  | Disconnected : IdentityConnectError
  | ReadMessage (e : ReadMessageError) : IdentityConnectError
  | InvalidName : IdentityConnectError
  | UnexpectedMessageType (ty : Nat) : IdentityConnectError
deriving DecidableEq, Repr

/-- The byteorder_error_chain mapping for identity::ConnectError. -/
def IdentityConnectError.fromLow : LowErr → IdentityConnectError
  | LowErr.unexpectedEof => IdentityConnectError.Disconnected
  | LowErr.ioError c => IdentityConnectError.ioError c

/-- crypto::EcdsaPrivateKey::deserialize: read the 32 bytes of key material. -/
def ecdsaPrivateKeyDeserialize (c : Cursor) : Except LowErr (List Nat × Cursor) :=
  cursorReadBytes 32 c

/-- The name-reading loop of IdentityService::connect: iterate over the bytes
remaining in the cursor, stopping at the first NUL byte or at the end of the
buffer. -/
def readNameBytes (c : Cursor) : List Nat := c.remaining.takeWhile (fun b => b != 0)

/-- The bootstrap loop of IdentityService::connect, run after the START
message has been sent: read frames until an identity-update frame with a
nonzero end-of-list flag arrives; every non-terminal frame contributes one
insertion into the egos table.  The table is represented by the ordered list
of insertions performed (the hash of a public key is supplied by hashPk, the
cryptographic collaborator being opaque).  Fuel bounds the number of frames
processed; none means the bound was hit. -/
def identityConnectLoop (hashPk : List Nat → Nat) (fuel : Nat)
    (inserts : List (Nat × Ego)) (s : ByteStream) :
    Option (Except IdentityConnectError (List (Nat × Ego) × ByteStream)) :=
  match fuel with
  | 0 => none
  | fuel + 1 =>
    match read_message s with
    | (Except.error e, _) => some (Except.error (IdentityConnectError.ReadMessage e))
    | (Except.ok (tpe, mr), s') =>
      if tpe = GNUNET_MESSAGE_TYPE_IDENTITY_UPDATE then
        match cursorReadU16 mr with
        | Except.error e => some (Except.error (IdentityConnectError.fromLow e))
        | Except.ok (_, mr1) =>
          match cursorReadU16 mr1 with
          | Except.error e => some (Except.error (IdentityConnectError.fromLow e))
          | Except.ok (eol, mr2) =>
            if eol ≠ 0 then
              some (Except.ok (inserts, s'))
            else
              match ecdsaPrivateKeyDeserialize mr2 with
              | Except.error e => some (Except.error (IdentityConnectError.fromLow e))
              | Except.ok (pk, mr3) =>
                let v := readNameBytes mr3
                if utf8Valid v then
                  let id := hashPk pk
                  identityConnectLoop hashPk fuel (inserts ++ [(id, ⟨pk, some v, id⟩)]) s'
                else
                  some (Except.error IdentityConnectError.InvalidName)
      else
        some (Except.error (IdentityConnectError.UnexpectedMessageType tpe))

/-- Wire encoding of one non-terminal identity-update frame: declared length
41 + name length, update type, then name length + 1, end-of-list flag 0, the
32 key bytes and the NUL-terminated name. -/
def identityUpdateFrame (pk v : List Nat) : List Nat :=
  u16be (41 + v.length) ++ u16be GNUNET_MESSAGE_TYPE_IDENTITY_UPDATE ++
    (u16be (v.length + 1) ++ u16be 0 ++ pk ++ v ++ [0])

/-- Wire encoding of the terminal identity-update frame: end-of-list flag
nonzero, no further fields. -/
def identityEndFrame : List Nat :=
  u16be 8 ++ u16be GNUNET_MESSAGE_TYPE_IDENTITY_UPDATE ++ (u16be 0 ++ u16be 1)

/-- A reply stream of non-terminal identity records followed by the terminal
record and arbitrary further bytes. -/
def identityWire (recs : List (List Nat × List Nat)) (rest : List Nat) : List Nat :=
  (recs.map (fun r => identityUpdateFrame r.1 r.2)).flatten ++ identityEndFrame ++ rest

/-- A well-formed non-terminal identity record: 32 key bytes, a name without
NUL bytes that is valid UTF-8, fitting in one frame. -/
def wellFormedIdRec (r : List Nat × List Nat) : Prop :=
  r.1.length = 32 ∧ (∀ b ∈ r.2, b ≠ 0) ∧ utf8Valid r.2 = true ∧ 41 + r.2.length ≤ 65535

/-- The table insertion produced by one identity record. -/
def egoOf (hashPk : List Nat → Nat) (r : List Nat × List Nat) : Nat × Ego :=
  (hashPk r.1, ⟨r.1, some r.2, hashPk r.1⟩)

theorem cursorReadBytes_of_remaining (c : Cursor) (xs ys : List Nat)
    (hrem : c.remaining = xs ++ ys) (hn : 1 ≤ xs.length) :
    cursorReadBytes xs.length c = Except.ok (xs, ⟨c.data, c.pos + xs.length⟩) ∧
    Cursor.remaining ⟨c.data, c.pos + xs.length⟩ = ys := by
  have hdrop : c.data.drop c.pos = xs ++ ys := hrem
  have hlen : c.data.length - c.pos = xs.length + ys.length := by
    have := congrArg List.length hdrop
    simpa using this
  have hpos : c.pos < c.data.length := by
    by_contra h
    push_neg at h
    have hnil : c.data.drop c.pos = [] := List.drop_eq_nil_of_le h
    rw [hnil] at hdrop
    have := congrArg List.length hdrop
    simp at this
    omega
  have hle : c.pos + xs.length ≤ c.data.length := by omega
  refine ⟨?_, ?_⟩
  · simp only [cursorReadBytes]
    rw [if_pos hle, hdrop, List.take_left]
  · show c.data.drop (c.pos + xs.length) = ys
    have hdd : c.data.drop (c.pos + xs.length) = (c.data.drop c.pos).drop xs.length := by
      rw [List.drop_drop, Nat.add_comm]
    rw [hdd, hdrop, List.drop_left]

theorem cursorReadU16_of_remaining (c : Cursor) (xs ys : List Nat)
    (hrem : c.remaining = xs ++ ys) (h2 : xs.length = 2) :
    cursorReadU16 c = Except.ok (beVal xs, ⟨c.data, c.pos + 2⟩) ∧
    Cursor.remaining ⟨c.data, c.pos + 2⟩ = ys := by
  obtain ⟨h1, hr⟩ := cursorReadBytes_of_remaining c xs ys hrem (by omega)
  rw [h2] at h1 hr
  exact ⟨by simp only [cursorReadU16, h1], hr⟩

theorem cursorReadU32_of_remaining (c : Cursor) (xs ys : List Nat)
    (hrem : c.remaining = xs ++ ys) (h4 : xs.length = 4) :
    cursorReadU32 c = Except.ok (beVal xs, ⟨c.data, c.pos + 4⟩) ∧
    Cursor.remaining ⟨c.data, c.pos + 4⟩ = ys := by
  obtain ⟨h1, hr⟩ := cursorReadBytes_of_remaining c xs ys hrem (by omega)
  rw [h4] at h1 hr
  exact ⟨by simp only [cursorReadU32, h1], hr⟩

theorem takeWhile_of_no_zero (v rest : List Nat) (hnz : ∀ b ∈ v, b ≠ 0) :
    (v ++ 0 :: rest).takeWhile (fun b => b != 0) = v := by
  induction v with
  | nil => simp
  | cons a v ih =>
    have ha : a ≠ 0 := hnz a (List.mem_cons_self a v)
    have hv : ∀ b ∈ v, b ≠ 0 := fun b hb => hnz b (List.mem_cons_of_mem a hb)
    simp only [List.cons_append, List.takeWhile_cons]
    rw [if_pos (by simpa using ha)]
    rw [ih hv]

/-- Processing one well-formed non-terminal identity-update frame: the loop
performs exactly one table insertion and continues on the rest of the
stream. -/
theorem identityConnectLoop_step (hashPk : List Nat → Nat) (pk v more : List Nat)
    (t : StreamTail) (fuel : Nat) (inserts : List (Nat × Ego))
    (hpk : pk.length = 32) (hnz : ∀ b ∈ v, b ≠ 0) (hu : utf8Valid v = true)
    (hfit : 41 + v.length ≤ 65535) :
    identityConnectLoop hashPk (fuel + 1) inserts ⟨identityUpdateFrame pk v ++ more, t⟩ =
      identityConnectLoop hashPk fuel (inserts ++ [egoOf hashPk (pk, v)]) ⟨more, t⟩ := by
  set body : List Nat := u16be (v.length + 1) ++ u16be 0 ++ pk ++ v ++ [0] with hbody
  have hblen : body.length = 37 + v.length := by
    simp [hbody, u16be, beBytes, hpk]
    try omega
  have hframe : identityUpdateFrame pk v ++ more =
      u16be (body.length + 4) ++ u16be GNUNET_MESSAGE_TYPE_IDENTITY_UPDATE ++ body ++ more := by
    simp only [identityUpdateFrame, hblen, hbody]
    have h41 : 41 + v.length = 37 + v.length + 4 := by omega
    rw [h41]
  have hrm := read_message_frame GNUNET_MESSAGE_TYPE_IDENTITY_UPDATE body more t
    (by omega) (by norm_num [GNUNET_MESSAGE_TYPE_IDENTITY_UPDATE])
  rw [hframe]
  simp only [identityConnectLoop, hrm, eq_self_iff_true, ite_true]
  -- first u16: the (unused) name length field
  have hrem0 : Cursor.remaining ⟨u16be GNUNET_MESSAGE_TYPE_IDENTITY_UPDATE ++ body, 2⟩ =
      u16be (v.length + 1) ++ (u16be 0 ++ (pk ++ (v ++ [0]))) := by
    simp [Cursor.remaining, u16be, beBytes, hbody, List.append_assoc]
  obtain ⟨h1, hrem1⟩ := cursorReadU16_of_remaining _ _ _ hrem0 (by simp [u16be, beBytes])
  dsimp only at h1 hrem1
  simp only [h1]
  -- second u16: the end-of-list flag, zero here
  obtain ⟨h2, hrem2⟩ := cursorReadU16_of_remaining _ _ _ hrem1 (by simp [u16be, beBytes])
  dsimp only at h2 hrem2
  rw [show beVal (u16be 0) = 0 from beVal_u16be 0 (by norm_num)] at h2
  simp only [h2]
  rw [if_neg (by norm_num)]
  -- the 32 key bytes
  obtain ⟨h3, hrem3⟩ := cursorReadBytes_of_remaining _ _ _ hrem2 (by omega)
  rw [hpk] at h3 hrem3
  dsimp only at h3 hrem3
  simp only [ecdsaPrivateKeyDeserialize, h3]
  -- the NUL-terminated name
  have hname : readNameBytes ⟨u16be GNUNET_MESSAGE_TYPE_IDENTITY_UPDATE ++ body, 2 + 2 + 2 + 32⟩
      = v := by
    simp only [readNameBytes]
    rw [show v ++ [0] = v ++ 0 :: [] from rfl] at hrem3
    rw [hrem3]
    exact takeWhile_of_no_zero v [] hnz
  simp only [hname, hu, ite_true]
  rfl

/-- Processing the terminal identity-update frame: the loop stops, returning
the insertions performed so far and the untouched remainder of the stream. -/
theorem identityConnectLoop_end (hashPk : List Nat → Nat) (more : List Nat)
    (t : StreamTail) (fuel : Nat) (inserts : List (Nat × Ego)) :
    identityConnectLoop hashPk (fuel + 1) inserts ⟨identityEndFrame ++ more, t⟩ =
      some (Except.ok (inserts, ⟨more, t⟩)) := by
  set body : List Nat := u16be 0 ++ u16be 1 with hbody
  have hframe : identityEndFrame ++ more =
      u16be (body.length + 4) ++ u16be GNUNET_MESSAGE_TYPE_IDENTITY_UPDATE ++ body ++ more := by
    simp [identityEndFrame, hbody, u16be, beBytes, List.append_assoc]
  have hrm := read_message_frame GNUNET_MESSAGE_TYPE_IDENTITY_UPDATE body more t
    (by simp [hbody, u16be, beBytes]) (by norm_num [GNUNET_MESSAGE_TYPE_IDENTITY_UPDATE])
  rw [hframe]
  simp only [identityConnectLoop, hrm, if_pos rfl]
  have hrem0 : Cursor.remaining ⟨u16be GNUNET_MESSAGE_TYPE_IDENTITY_UPDATE ++ body, 2⟩ =
      u16be 0 ++ u16be 1 := by
    simp [Cursor.remaining, u16be, beBytes, hbody]
  obtain ⟨h1, hrem1⟩ := cursorReadU16_of_remaining _ _ _ hrem0 (by simp [u16be, beBytes])
  dsimp only at h1 hrem1
  simp only [h1]
  obtain ⟨h2, _⟩ := cursorReadU16_of_remaining _ (u16be 1) [] (by rw [hrem1]; simp)
    (by simp [u16be, beBytes] : (u16be 1).length = 2)
  dsimp only at h2
  rw [show beVal (u16be 1) = 1 from beVal_u16be 1 (by norm_num)] at h2
  simp only [h2]
  simp

/-- Running the bootstrap loop over a stream of well-formed non-terminal
records followed by the terminal record: one insertion per record, in order,
and the loop stops at the terminal frame leaving the rest of the stream
unread. -/
theorem identityConnectLoop_run (hashPk : List Nat → Nat)
    (recs : List (List Nat × List Nat)) (rest : List Nat) (t : StreamTail)
    (inserts : List (Nat × Ego)) (fuel : Nat)
    (hfuel : recs.length + 1 ≤ fuel)
    (hw : ∀ r ∈ recs, wellFormedIdRec r) :
    identityConnectLoop hashPk fuel inserts ⟨identityWire recs rest, t⟩ =
      some (Except.ok (inserts ++ recs.map (egoOf hashPk), ⟨rest, t⟩)) := by
  induction recs generalizing inserts fuel with
  | nil =>
    obtain ⟨fuel', rfl⟩ : ∃ k, fuel = k + 1 := ⟨fuel - 1, by omega⟩
    simp only [identityWire, List.map_nil, List.flatten_nil, List.nil_append]
    rw [identityConnectLoop_end]
    simp
  | cons r rs ih =>
    obtain ⟨fuel', rfl⟩ : ∃ k, fuel = k + 1 := ⟨fuel - 1, by omega⟩
    obtain ⟨pk, v⟩ := r
    obtain ⟨hpk, hnz, hu, hfit⟩ := hw (pk, v) (List.mem_cons_self _ _)
    have hwire : identityWire ((pk, v) :: rs) rest =
        identityUpdateFrame pk v ++ identityWire rs rest := by
      simp [identityWire, List.append_assoc]
    rw [hwire, identityConnectLoop_step hashPk pk v _ t fuel' inserts hpk hnz hu hfit]
    rw [ih (inserts ++ [egoOf hashPk (pk, v)]) fuel'
      (by simp only [List.length_cons] at hfuel; omega)
      (fun r hr => hw r (List.mem_cons_of_mem _ hr))]
    simp [egoOf]

/-- Errors of Peers::next (peerinfo::NextPeerError).  The Io variant carries
the low-level error it wraps. -/
inductive NextPeerError : Type
  | InvalidResponse : NextPeerError
  | UnexpectedMessageType (ty : Nat) : NextPeerError
  | ioError (e : LowErr) : NextPeerError
  | ReadMessage (e : ReadMessageError) : NextPeerError
  | Disconnected : NextPeerError
deriving DecidableEq, Repr

/-- peerinfo::Peers::next: read one frame per call.  A peer-info frame yields
the 32-byte peer identity (hello parsing is not implemented, so the hello part
is always none); the end-of-list frame finishes the iterator (none); anything
else is an error.  Returns the iterator step result together with the
remaining stream. -/
def peersNext (s : ByteStream) :
    Option (Except NextPeerError (List Nat × Option Unit)) × ByteStream :=
  match read_message s with
  | (Except.error e, s') => (some (Except.error (NextPeerError.ReadMessage e)), s')
  | (Except.ok (tpe, mr), s') =>
    if tpe = GNUNET_MESSAGE_TYPE_PEERINFO_INFO then
      match cursorReadU32 mr with
      | Except.error LowErr.unexpectedEof => (some (Except.error NextPeerError.Disconnected), s')
      | Except.error (LowErr.ioError c) =>
        (some (Except.error (NextPeerError.ioError (LowErr.ioError c))), s')
      | Except.ok (x, mr1) =>
        if x = 0 then
          match cursorReadBytes 32 mr1 with
          | Except.error e => (some (Except.error (NextPeerError.ioError e)), s')
          | Except.ok (pid, _) => (some (Except.ok (pid, none)), s')
        else
          (some (Except.error NextPeerError.InvalidResponse), s')
    else if tpe = GNUNET_MESSAGE_TYPE_PEERINFO_INFO_END then
      (none, s')
    else
      (some (Except.error (NextPeerError.UnexpectedMessageType tpe)), s')

/-- Repeatedly calling Peers::next, collecting the yielded items until the
iterator finishes or fuel runs out. -/
def peersRun (fuel : Nat) (s : ByteStream) :
    List (Except NextPeerError (List Nat × Option Unit)) × ByteStream :=
  match fuel with
  | 0 => ([], s)
  | fuel + 1 =>
    match peersNext s with
    | (none, s') => ([], s')
    | (some r, s') =>
      let (rs, s'') := peersRun fuel s'
      (r :: rs, s'')

/-- Wire encoding of one peer-info frame: declared length 40, info type, a
zero u32 and the 32 peer-identity bytes. -/
def peerInfoFrame (pid : List Nat) : List Nat :=
  u16be 40 ++ u16be GNUNET_MESSAGE_TYPE_PEERINFO_INFO ++ (beBytes 4 0 ++ pid)

/-- Wire encoding of the end-of-list peer-info frame: declared length 4, no
payload. -/
def peerEndFrame : List Nat :=
  u16be 4 ++ u16be GNUNET_MESSAGE_TYPE_PEERINFO_INFO_END

/-- A reply stream of peer-info records followed by the end marker and
arbitrary further bytes. -/
def peersWire (pids : List (List Nat)) (rest : List Nat) : List Nat :=
  (pids.map peerInfoFrame).flatten ++ peerEndFrame ++ rest

/-- One successful step of Peers::next on a well-formed peer-info frame. -/
theorem peersNext_info (pid more : List Nat) (t : StreamTail) (hpid : pid.length = 32) :
    peersNext ⟨peerInfoFrame pid ++ more, t⟩ =
      (some (Except.ok (pid, none)), ⟨more, t⟩) := by
  set body : List Nat := beBytes 4 0 ++ pid with hbody
  have hframe : peerInfoFrame pid ++ more =
      u16be (body.length + 4) ++ u16be GNUNET_MESSAGE_TYPE_PEERINFO_INFO ++ body ++ more := by
    simp [peerInfoFrame, hbody, beBytes, hpid, List.append_assoc]
  have hrm := read_message_frame GNUNET_MESSAGE_TYPE_PEERINFO_INFO body more t
    (by simp [hbody, beBytes, hpid]) (by norm_num [GNUNET_MESSAGE_TYPE_PEERINFO_INFO])
  rw [hframe]
  simp only [peersNext, hrm, eq_self_iff_true, ite_true]
  have hrem0 : Cursor.remaining ⟨u16be GNUNET_MESSAGE_TYPE_PEERINFO_INFO ++ body, 2⟩ =
      beBytes 4 0 ++ pid := by
    simp [Cursor.remaining, u16be, beBytes, hbody]
  obtain ⟨h1, hrem1⟩ := cursorReadU32_of_remaining _ _ _ hrem0 (by simp [beBytes])
  dsimp only at h1 hrem1
  rw [show beVal (beBytes 4 0) = 0 by simp [beBytes, beVal]] at h1
  simp only [h1, if_true]
  obtain ⟨h2, _⟩ := cursorReadBytes_of_remaining _ pid [] (by rw [hrem1]; simp) (by omega)
  rw [hpid] at h2
  dsimp only at h2
  simp only [h2]

/-- The end-of-list step of Peers::next. -/
theorem peersNext_end (more : List Nat) (t : StreamTail) :
    peersNext ⟨peerEndFrame ++ more, t⟩ = (none, ⟨more, t⟩) := by
  have hframe : peerEndFrame ++ more =
      u16be (([] : List Nat).length + 4) ++ u16be GNUNET_MESSAGE_TYPE_PEERINFO_INFO_END ++
        [] ++ more := by
    simp [peerEndFrame]
  have hrm := read_message_frame GNUNET_MESSAGE_TYPE_PEERINFO_INFO_END [] more t
    (by simp) (by norm_num [GNUNET_MESSAGE_TYPE_PEERINFO_INFO_END])
  rw [hframe]
  simp only [peersNext, hrm]
  rw [if_neg (by norm_num [GNUNET_MESSAGE_TYPE_PEERINFO_INFO,
    GNUNET_MESSAGE_TYPE_PEERINFO_INFO_END])]
  simp only [if_true]

/-- Iterating Peers::next over a stream of well-formed peer-info records
yields exactly those records in order, leaving the stream positioned at the
end marker. -/
theorem peersRun_wire (pids : List (List Nat)) (rest : List Nat) (t : StreamTail)
    (hw : ∀ p ∈ pids, p.length = 32) :
    peersRun pids.length ⟨peersWire pids rest, t⟩ =
      (pids.map (fun p => Except.ok (p, none)), ⟨peerEndFrame ++ rest, t⟩) := by
  induction pids with
  | nil => simp [peersRun, peersWire]
  | cons p ps ih =>
    have hp : p.length = 32 := hw p (List.mem_cons_self _ _)
    have hwire : peersWire (p :: ps) rest = peerInfoFrame p ++ peersWire ps rest := by
      simp [peersWire, List.append_assoc]
    simp only [List.length_cons, peersRun, hwire,
      peersNext_info p (peersWire ps rest) t hp]
    rw [ih (fun q hq => hw q (List.mem_cons_of_mem _ hq))]
    simp

/-- C6: for every reply stream of k well-formed non-terminal records followed
by one terminal record, the streaming consumers yield exactly k records and
then signal completion without reading past the terminal frame:
IdentityService::connect performs exactly k insertions into its egos table and
breaks on the terminal frame leaving the rest of the stream unread, and
Peers::next yields one Some per record and then none on the end-marker frame,
likewise leaving the rest of the stream unread. -/
theorem c6_sentinel_termination
    (hashPk : List Nat → Nat) (recs : List (List Nat × List Nat))
    (rest : List Nat) (t : StreamTail) (fuel : Nat)
    (pids : List (List Nat)) (prest : List Nat) (pt : StreamTail)
    (hfuel : recs.length + 1 ≤ fuel)
    (hw : ∀ r ∈ recs, wellFormedIdRec r)
    (hpw : ∀ p ∈ pids, p.length = 32) :
    (identityConnectLoop hashPk fuel [] ⟨identityWire recs rest, t⟩ =
        some (Except.ok (recs.map (egoOf hashPk), ⟨rest, t⟩)) ∧
      (recs.map (egoOf hashPk)).length = recs.length) ∧
    (peersRun pids.length ⟨peersWire pids prest, pt⟩ =
        (pids.map (fun p => Except.ok (p, none)), ⟨peerEndFrame ++ prest, pt⟩) ∧
      (pids.map (fun p => (Except.ok (p, none) :
          Except NextPeerError (List Nat × Option Unit)))).length = pids.length ∧
      peersNext ⟨peerEndFrame ++ prest, pt⟩ = (none, ⟨prest, pt⟩)) := by
  refine ⟨⟨?_, by simp⟩, ?_, by simp, peersNext_end prest pt⟩
  · have := identityConnectLoop_run hashPk recs rest t [] fuel hfuel hw
    simpa using this
  · exact peersRun_wire pids prest pt hpw

/-- Evaluation of the sentinel-termination property with one identity record
(key bytes all 1, name "a") and one peer record (identity bytes all 2). -/
theorem c6_sentinel_termination_witness :
    (identityConnectLoop (fun bs => bs.foldl (fun a b => a + b) 0) 2 []
        ⟨identityWire [(List.replicate 32 1, [97])] [7], StreamTail.eof⟩ =
        some (Except.ok ([(List.replicate 32 1, [97])].map
          (egoOf (fun bs => bs.foldl (fun a b => a + b) 0)), ⟨[7], StreamTail.eof⟩)) ∧
      ([(List.replicate 32 1, [97])].map
        (egoOf (fun bs => bs.foldl (fun a b => a + b) 0))).length =
        [(List.replicate 32 1, [97])].length) ∧
    (peersRun [List.replicate 32 2].length ⟨peersWire [List.replicate 32 2] [5],
          StreamTail.eof⟩ =
        ([List.replicate 32 2].map (fun p => Except.ok (p, none)),
          ⟨peerEndFrame ++ [5], StreamTail.eof⟩) ∧
      ([List.replicate 32 2].map (fun p => (Except.ok (p, none) :
          Except NextPeerError (List Nat × Option Unit)))).length =
        [List.replicate 32 2].length ∧
      peersNext ⟨peerEndFrame ++ [5], StreamTail.eof⟩ =
        (none, ⟨[5], StreamTail.eof⟩)) :=
  c6_sentinel_termination (fun bs => bs.foldl (fun a b => a + b) 0)
    [(List.replicate 32 1, [97])] [7] StreamTail.eof 2
    [List.replicate 32 2] [5] StreamTail.eof
    (by decide)
    (by intro r hr
        simp only [List.mem_singleton] at hr
        subst hr
        refine ⟨by decide, by decide, by decide, by decide⟩)
    (by intro p hp
        simp only [List.mem_singleton] at hp
        subst hp
        decide)

/-- Errors of util::ReadCString::read_c_string. -/
inductive ReadCStringError : Type
  | ioError (code : Nat) : ReadCStringError
  | FromUtf8 : ReadCStringError
  | Disconnected : ReadCStringError
deriving DecidableEq, Repr

/-- util::ReadCString::read_c_string on a cursor: read bytes until a NUL byte,
then validate the collected bytes as UTF-8.  Running off the end of the buffer
before a NUL is an unexpected end-of-file, which the error chain maps to
Disconnected. -/
def read_c_string (c : Cursor) : Except ReadCStringError (List Nat × Cursor) :=
  let v := c.remaining.takeWhile (fun b => b != 0)
  if v.length = c.remaining.length then
    Except.error ReadCStringError.Disconnected
  else if utf8Valid v then
    Except.ok (v, ⟨c.data, c.pos + v.length + 1⟩)
  else
    Except.error ReadCStringError.FromUtf8

/-- Errors of util::ReadCString::read_c_string_with_len. -/
inductive ReadCStringWithLenError : Type
  | ioError (code : Nat) : ReadCStringWithLenError
  | FromUtf8 : ReadCStringWithLenError
  | Disconnected : ReadCStringWithLenError
  | InteriorNul (pos : Nat) : ReadCStringWithLenError
  | NoTerminator : ReadCStringWithLenError
deriving DecidableEq, Repr

/-- util::ReadCString::read_c_string_with_len on a cursor: read exactly len
bytes, failing with InteriorNul at the position of the first NUL among them,
then require a NUL terminator, then validate UTF-8; running off the end of the
buffer maps to Disconnected. -/
def read_c_string_with_len (len : Nat) (c : Cursor) :
    Except ReadCStringWithLenError (List Nat × Cursor) :=
  let avail := c.remaining
  let pre := (avail.take len).takeWhile (fun b => b != 0)
  if pre.length < len then
    if pre.length < avail.length then
      Except.error (ReadCStringWithLenError.InteriorNul pre.length)
    else
      Except.error ReadCStringWithLenError.Disconnected
  else
    match avail.get? len with
    | none => Except.error ReadCStringWithLenError.Disconnected
    | some b =>
      if b != 0 then
        Except.error ReadCStringWithLenError.NoTerminator
      else if utf8Valid pre then
        Except.ok (pre, ⟨c.data, c.pos + len + 1⟩)
      else
        Except.error ReadCStringWithLenError.FromUtf8

/-- Errors of IdentityService::get_default_ego
(identity::GetDefaultEgoError); the Connect variant wraps the connection
step, which happens before the exchange modelled here. -/
inductive GetDefaultEgoError : Type
  | NameTooLong (name : List Nat) : GetDefaultEgoError
  | ioError (code : Nat) : GetDefaultEgoError
  | ReadMessage (e : ReadMessageError) : GetDefaultEgoError
  | ServiceResponse (msg : List Nat) : GetDefaultEgoError
  | MalformedErrorResponse : GetDefaultEgoError
  | ReceiveName (e : ReadCStringWithLenError) : GetDefaultEgoError
  | InvalidResponse : GetDefaultEgoError
  | Disconnected : GetDefaultEgoError
deriving DecidableEq, Repr

/-- The byteorder_error_chain mapping for identity::GetDefaultEgoError. -/
def GetDefaultEgoError.fromLow : LowErr → GetDefaultEgoError
  | LowErr.unexpectedEof => GetDefaultEgoError.Disconnected
  | LowErr.ioError c => GetDefaultEgoError.ioError c

/-- IdentityService::get_default_ego: reject names whose message would not fit
a u16 length, send the GET_DEFAULT request (2-byte name length + 1, 2-byte
zero, NUL-terminated name), then read one reply frame from the stream.  A
RESULT_CODE reply is a service-level error; a SET_DEFAULT reply is parsed as
name length, a zero u16, the 32 key bytes and the echoed name, and when the
echoed name matches, the egos table built at connect time is indexed with the
hash of the key — a HashMap index that panics when the id is absent. -/
def get_default_ego (hashPk : List Nat → Nat) (egos : List (Nat × Ego)) (name : List Nat)
    (net : List Nat → Option Nat) (s : ByteStream) : Outcome GetDefaultEgoError Ego :=
  if 8 + name.length + 1 > 65535 then
    Outcome.err (GetDefaultEgoError.NameTooLong name)
  else
    let buf := bufWrites
      (write_message (8 + name.length + 1) GNUNET_MESSAGE_TYPE_IDENTITY_GET_DEFAULT)
      [u16be (name.length + 1), u16be 0, name, [0]]
    match mwSend buf net with
    | Outcome.panicked => Outcome.panicked
    | Outcome.err c => Outcome.err (GetDefaultEgoError.ioError c)
    | Outcome.ok _ =>
      match read_message s with
      | (Except.error e, _) => Outcome.err (GetDefaultEgoError.ReadMessage e)
      | (Except.ok (tpe, mr), _) =>
        if tpe = GNUNET_MESSAGE_TYPE_IDENTITY_RESULT_CODE then
          match cursorReadU32 mr with
          | Except.error e => Outcome.err (GetDefaultEgoError.fromLow e)
          | Except.ok (_, mr1) =>
            match read_c_string mr1 with
            | Except.error (ReadCStringError.ioError c) =>
              Outcome.err (GetDefaultEgoError.ioError c)
            | Except.error ReadCStringError.FromUtf8 =>
              Outcome.err GetDefaultEgoError.MalformedErrorResponse
            | Except.error ReadCStringError.Disconnected =>
              Outcome.err GetDefaultEgoError.Disconnected
            | Except.ok (msg, _) => Outcome.err (GetDefaultEgoError.ServiceResponse msg)
        else if tpe = GNUNET_MESSAGE_TYPE_IDENTITY_SET_DEFAULT then
          match cursorReadU16 mr with
          | Except.error e => Outcome.err (GetDefaultEgoError.fromLow e)
          | Except.ok (reply_name_len, mr1) =>
            if reply_name_len = 0 then
              Outcome.err GetDefaultEgoError.InvalidResponse
            else
              match cursorReadU16 mr1 with
              | Except.error e => Outcome.err (GetDefaultEgoError.fromLow e)
              | Except.ok (z, mr2) =>
                if z = 0 then
                  match ecdsaPrivateKeyDeserialize mr2 with
                  | Except.error e => Outcome.err (GetDefaultEgoError.fromLow e)
                  | Except.ok (pk, mr3) =>
                    match read_c_string_with_len (reply_name_len - 1) mr3 with
                    | Except.error e => Outcome.err (GetDefaultEgoError.ReceiveName e)
                    | Except.ok (echoed, _) =>
                      if echoed = name then
                        match alistGet egos (hashPk pk) with
                        | none => Outcome.panicked
                        | some e => Outcome.ok e
                      else
                        Outcome.err GetDefaultEgoError.InvalidResponse
                else
                  Outcome.err GetDefaultEgoError.InvalidResponse
        else
          Outcome.err GetDefaultEgoError.InvalidResponse

/-- Wire encoding of a well-formed SET_DEFAULT reply echoing the given name
for the given 32-byte private key. -/
def setDefaultFrame (pk name : List Nat) : List Nat :=
  u16be (41 + name.length) ++ u16be GNUNET_MESSAGE_TYPE_IDENTITY_SET_DEFAULT ++
    (u16be (name.length + 1) ++ u16be 0 ++ pk ++ name ++ [0])

/-- C9: when IdentityService::get_default_ego(name) receives a well-formed
SET_DEFAULT reply whose echoed name equals name but whose private key hashes
to an id absent from the egos table built at connect time, the function panics
(HashMap index on a missing key) instead of returning any GetDefaultEgoError;
it returns Ok exactly when that id is present, yielding that entry. -/
theorem c9_get_default_ego_panics (hashPk : List Nat → Nat) (egos : List (Nat × Ego))
    (name pk srest : List Nat) (t : StreamTail) (net : List Nat → Option Nat)
    (hpk : pk.length = 32) (hnz : ∀ b ∈ name, b ≠ 0) (hu : utf8Valid name = true)
    (hfit : 41 + name.length ≤ 65535)
    (hnet : ∀ bs, net bs = none) :
    (alistGet egos (hashPk pk) = none →
      get_default_ego hashPk egos name net ⟨setDefaultFrame pk name ++ srest, t⟩ =
        Outcome.panicked) ∧
    (∀ e, alistGet egos (hashPk pk) = some e →
      get_default_ego hashPk egos name net ⟨setDefaultFrame pk name ++ srest, t⟩ =
        Outcome.ok e) := by
  set body : List Nat := u16be (name.length + 1) ++ u16be 0 ++ pk ++ name ++ [0] with hbody
  have hblen : body.length = 37 + name.length := by
    simp [hbody, u16be, beBytes, hpk]
    try omega
  have hframe : setDefaultFrame pk name ++ srest =
      u16be (body.length + 4) ++ u16be GNUNET_MESSAGE_TYPE_IDENTITY_SET_DEFAULT ++
        body ++ srest := by
    simp only [setDefaultFrame, hblen, hbody]
    have h41 : 41 + name.length = 37 + name.length + 4 := by omega
    rw [h41]
  have hrm := read_message_frame GNUNET_MESSAGE_TYPE_IDENTITY_SET_DEFAULT body srest t
    (by omega) (by norm_num [GNUNET_MESSAGE_TYPE_IDENTITY_SET_DEFAULT])
  -- the request goes out successfully: header 4 + 2 + 2 + name + NUL fills the
  -- declared length exactly, so the send assertion holds
  have hlen : (bufWrites
      (write_message (8 + name.length + 1) GNUNET_MESSAGE_TYPE_IDENTITY_GET_DEFAULT)
      [u16be (name.length + 1), u16be 0, name, [0]]).data.length = 8 + name.length + 1 := by
    rw [bufWrites_data, write_message_eq _ _ (by omega)]
    simp [u16be, beBytes]
    try omega
  have hle : (bufWrites
      (write_message (8 + name.length + 1) GNUNET_MESSAGE_TYPE_IDENTITY_GET_DEFAULT)
      [u16be (name.length + 1), u16be 0, name, [0]]).data.length ≤
      (write_message (8 + name.length + 1) GNUNET_MESSAGE_TYPE_IDENTITY_GET_DEFAULT).cap := by
    rw [hlen, write_message_eq _ _ (by omega)]
  have hcap : (bufWrites
      (write_message (8 + name.length + 1) GNUNET_MESSAGE_TYPE_IDENTITY_GET_DEFAULT)
      [u16be (name.length + 1), u16be 0, name, [0]]).cap = 8 + name.length + 1 := by
    rw [bufWrites_cap_of_le _ _ hle, write_message_eq _ _ (by omega)]
  have hsend : mwSend (bufWrites
      (write_message (8 + name.length + 1) GNUNET_MESSAGE_TYPE_IDENTITY_GET_DEFAULT)
      [u16be (name.length + 1), u16be 0, name, [0]]) net =
      Outcome.ok (bufWrites
        (write_message (8 + name.length + 1) GNUNET_MESSAGE_TYPE_IDENTITY_GET_DEFAULT)
        [u16be (name.length + 1), u16be 0, name, [0]]).data := by
    simp only [mwSend, hlen, hcap, eq_self_iff_true, ite_true, hnet]
  have hmain : ∀ res : Outcome GetDefaultEgoError Ego,
      (alistGet egos (hashPk pk) = none → res = Outcome.panicked) ∧
        (∀ e, alistGet egos (hashPk pk) = some e → res = Outcome.ok e) →
      (alistGet egos (hashPk pk) = none → res = Outcome.panicked) ∧
        (∀ e, alistGet egos (hashPk pk) = some e → res = Outcome.ok e) := fun _ h => h
  -- evaluate the reply parsing down to the table lookup
  have heval : get_default_ego hashPk egos name net ⟨setDefaultFrame pk name ++ srest, t⟩ =
      (match alistGet egos (hashPk pk) with
       | none => Outcome.panicked
       | some e => Outcome.ok e) := by
    rw [show (⟨setDefaultFrame pk name ++ srest, t⟩ : ByteStream) =
      ⟨u16be (body.length + 4) ++ u16be GNUNET_MESSAGE_TYPE_IDENTITY_SET_DEFAULT ++
        body ++ srest, t⟩ by rw [← hframe]]
    simp only [get_default_ego]
    rw [if_neg (by omega)]
    simp only [hsend, hrm]
    rw [if_neg (by norm_num [GNUNET_MESSAGE_TYPE_IDENTITY_RESULT_CODE,
      GNUNET_MESSAGE_TYPE_IDENTITY_SET_DEFAULT])]
    simp only [eq_self_iff_true, ite_true]
    have hrem0 : Cursor.remaining ⟨u16be GNUNET_MESSAGE_TYPE_IDENTITY_SET_DEFAULT ++ body, 2⟩ =
        u16be (name.length + 1) ++ (u16be 0 ++ (pk ++ (name ++ [0]))) := by
      simp [Cursor.remaining, u16be, beBytes, hbody, List.append_assoc]
    obtain ⟨h1, hrem1⟩ := cursorReadU16_of_remaining _ _ _ hrem0 (by simp [u16be, beBytes])
    dsimp only at h1 hrem1
    rw [show beVal (u16be (name.length + 1)) = name.length + 1 from
      beVal_u16be _ (by omega)] at h1
    simp only [h1]
    rw [if_neg (by omega)]
    obtain ⟨h2, hrem2⟩ := cursorReadU16_of_remaining _ _ _ hrem1 (by simp [u16be, beBytes])
    dsimp only at h2 hrem2
    rw [show beVal (u16be 0) = 0 from beVal_u16be 0 (by norm_num)] at h2
    simp only [h2, eq_self_iff_true, ite_true]
    obtain ⟨h3, hrem3⟩ := cursorReadBytes_of_remaining _ _ _ hrem2 (by omega)
    rw [hpk] at h3 hrem3
    dsimp only at h3 hrem3
    simp only [ecdsaPrivateKeyDeserialize, h3]
    have hwl : read_c_string_with_len (name.length + 1 - 1)
        ⟨u16be GNUNET_MESSAGE_TYPE_IDENTITY_SET_DEFAULT ++ body, 2 + 2 + 2 + 32⟩ =
        Except.ok (name, ⟨u16be GNUNET_MESSAGE_TYPE_IDENTITY_SET_DEFAULT ++ body,
          2 + 2 + 2 + 32 + name.length + 1⟩) := by
      simp only [read_c_string_with_len, Nat.add_sub_cancel, hrem3]
      have htake : (name ++ [0]).take name.length = name := List.take_left name [0]
      rw [htake, List.takeWhile_eq_self_iff.mpr (by intro b hb; simpa using hnz b hb)]
      rw [if_neg (by omega)]
      have hget : (name ++ [0]).get? name.length = some 0 := by
        rw [List.get?_eq_getElem?, List.getElem?_append_right (Nat.le_refl _)]
        simp
      rw [hget]
      simp [hu]
    simp only [hwl, eq_self_iff_true, ite_true]
  rw [heval]
  constructor
  · intro hnone
    rw [hnone]
  · intro e hsome
    rw [hsome]

/-- Evaluation of the get_default_ego contract at a concrete input: name "a",
key bytes all 1 (hash 32 under a fold-sum stand-in hash); with an empty egos
table the call panics, with the id present it returns that ego. -/
theorem c9_get_default_ego_panics_witness :
    get_default_ego (fun bs => bs.foldl (fun a b => a + b) 0) [] [97] (fun _ => none)
      ⟨setDefaultFrame (List.replicate 32 1) [97] ++ [], StreamTail.eof⟩ =
      Outcome.panicked ∧
    get_default_ego (fun bs => bs.foldl (fun a b => a + b) 0)
      [(32, ⟨List.replicate 32 1, some [97], 32⟩)] [97] (fun _ => none)
      ⟨setDefaultFrame (List.replicate 32 1) [97] ++ [], StreamTail.eof⟩ =
      Outcome.ok ⟨List.replicate 32 1, some [97], 32⟩ :=
  ⟨(c9_get_default_ego_panics (fun bs => bs.foldl (fun a b => a + b) 0) [] [97]
      (List.replicate 32 1) [] StreamTail.eof (fun _ => none)
      (by decide) (by decide) (by decide) (by decide) (fun _ => rfl)).1 rfl,
   (c9_get_default_ego_panics (fun bs => bs.foldl (fun a b => a + b) 0)
      [(32, ⟨List.replicate 32 1, some [97], 32⟩)] [97]
      (List.replicate 32 1) [] StreamTail.eof (fun _ => none)
      (by decide) (by decide) (by decide) (by decide) (fun _ => rfl)).2
      ⟨List.replicate 32 1, some [97], 32⟩ (by decide)⟩

/-- Failure of Cfg::get_filename for the service's UNIXPATH key
(configuration::CfgGetFilenameError): the section or key may be missing, or
the value's dollar-expansion may fail.  The configuration parser is an
external collaborator consumed only through this lookup. -/
inductive CfgGetFilenameError : Type
  | NoSection : CfgGetFilenameError
  | NoKey : CfgGetFilenameError
  | ExpandDollar : CfgGetFilenameError
deriving DecidableEq, Repr

/-- An operating-system string as produced by PathBuf::into_os_string: either
valid UTF-8 or not. -/
inductive OsPath : Type
  | utf8 (s : List Nat) : OsPath
  | notUtf8 (bytes : List Nat) : OsPath
deriving DecidableEq, Repr

/-- OsString::into_string: succeeds with the string exactly when the path is
valid UTF-8, otherwise hands the OsString back as the error. -/
def intoString : OsPath → Except OsPath (List Nat)
  | OsPath.utf8 s => Except.ok s
  | OsPath.notUtf8 bs => Except.error (OsPath.notUtf8 bs)

/-- service::ConnectError: the configuration does not describe the service
(NotConfigured) or the transport failed (Io). -/
inductive ConnectError : Type
  | NotConfigured (cause : CfgGetFilenameError) : ConnectError
  | ioError (code : Nat) : ConnectError
deriving DecidableEq, Repr

/-- service::connect: look up the UNIXPATH of the service's section
(getFilename is the result of cfg.get_filename), convert the path to a String
— the unwrap panics when the path is not valid UTF-8 — connect the unix
stream (netConnect; an error is an I/O code) and clone the descriptor for the
write half (tryClone).  Success yields the reader and writer handles, both
referring to the path's transport. -/
def service_connect (getFilename : Except CfgGetFilenameError OsPath)
    (netConnect : List Nat → Except Nat Unit) (tryClone : Except Nat Unit) :
    Outcome ConnectError (List Nat × List Nat) :=
  match getFilename with
  | Except.error e => Outcome.err (ConnectError.NotConfigured e)
  | Except.ok os =>
    match intoString os with
    | Except.error _ => Outcome.panicked
    | Except.ok path =>
      match netConnect path with
      | Except.error c => Outcome.err (ConnectError.ioError c)
      | Except.ok _ =>
        match tryClone with
        | Except.error c => Outcome.err (ConnectError.ioError c)
        | Except.ok _ => Outcome.ok (path, path)

/-- C10: service::connect returns NotConfigured when the configuration has no
UNIXPATH for the service's section, returns Io when the transport connection
attempt fails, and panics (unwrap on the OsString-to-String conversion) when
the configured UNIXPATH is not valid UTF-8, rather than returning any typed
ConnectError. -/
theorem c10_connect_error_paths (netConnect : List Nat → Except Nat Unit)
    (tryClone : Except Nat Unit) :
    (∀ e, service_connect (Except.error e) netConnect tryClone =
      Outcome.err (ConnectError.NotConfigured e)) ∧
    (∀ s c, netConnect s = Except.error c →
      service_connect (Except.ok (OsPath.utf8 s)) netConnect tryClone =
        Outcome.err (ConnectError.ioError c)) ∧
    (∀ bs, service_connect (Except.ok (OsPath.notUtf8 bs)) netConnect tryClone =
      Outcome.panicked) := by
  refine ⟨fun e => rfl, fun s c hc => ?_, fun bs => rfl⟩
  simp [service_connect, intoString, hc]

/-- Evaluation of the connect error paths with a transport that refuses every
connection with I/O code 3. -/
theorem c10_connect_error_paths_witness :
    service_connect (Except.error CfgGetFilenameError.NoKey)
      (fun _ => (Except.error 3 : Except Nat Unit)) (Except.ok ()) =
      Outcome.err (ConnectError.NotConfigured CfgGetFilenameError.NoKey) ∧
    service_connect (Except.ok (OsPath.utf8 [97]))
      (fun _ => (Except.error 3 : Except Nat Unit)) (Except.ok ()) =
      Outcome.err (ConnectError.ioError 3) ∧
    service_connect (Except.ok (OsPath.notUtf8 [255]))
      (fun _ => (Except.error 3 : Except Nat Unit)) (Except.ok ()) =
      Outcome.panicked :=
  ⟨(c10_connect_error_paths (fun _ => (Except.error 3 : Except Nat Unit))
      (Except.ok ())).1 CfgGetFilenameError.NoKey,
   (c10_connect_error_paths (fun _ => (Except.error 3 : Except Nat Unit))
      (Except.ok ())).2.1 [97] 3 rfl,
   (c10_connect_error_paths (fun _ => (Except.error 3 : Except Nat Unit))
      (Except.ok ())).2.2 [255]⟩

end Gnunet
